import Mathlib

/-!
Verification of the memory and context engine of the ragChatbot repository
(`chatbot/memory_manager.py`, `chatbot/models.py`), as a shallow embedding.

Modelling conventions:

* Python floats are IEEE-754 binary64 values.  Every float reachable in the
  importance scorer is a nonnegative multiple of 2 ^ (-56) (the values are 0,
  the doubles 0.1 and 0.2 and results of adding them, all below 4), so floats
  are represented exactly as integers scaled by 2 ^ 56, and float addition
  is modelled by adding the scaled integers and rounding the exact sum to the
  binary64 grid with round-to-nearest, ties-to-even (`fadd`).  On the reachable
  domain this agrees bit-for-bit with Python float addition.  `qVal` recovers
  the represented rational value.
* Timestamps are integers (unit: hours, matching the 24-hour expiry offset in
  `store_short_term_memory`).  `django.utils.timezone.now()` is modelled by an
  explicit `now` argument; `auto_now` fields are set to `now` on save and
  `auto_now_add` fields on create.
* The Django ORM table of `ConversationMemory` rows is a list (`MemDB.mems`)
  plus a primary-key counter.  Query sets are list filters; `order_by` is an
  insertion sort with the corresponding comparison; slicing `[:limit]` with a
  negative bound raises, as in Django ("Negative indexing is not supported"),
  and `.delete()` on a sliced query set raises TypeError
  ("Cannot use limit or offset with delete"), as Django has always done.
  Raised exceptions are modelled with `Except`; `try/except` blocks in the
  source become `match` on the `Except` value.
* JSON-ish Python values appearing in `context` dicts and in `**kwargs` are
  modelled by `PVal`.  Strings are Lean `String`s; `str.lower` is modelled by
  `Char.toLower` (identical on the ASCII data appearing here) and the Python
  substring test `a in b` by `containsC`.
-/

/-- Python value used for `context` dicts, `context_variables` and `**kwargs`
arguments (strings, ints, bools, lists of strings, string-to-string dicts). -/
inductive PVal where
  | s (v : String)
  | i (v : ℤ)
  | b (v : Bool)
  | strList (v : List String)
  | strDict (v : List (String × String))
deriving DecidableEq

/-- `startsWithC n h` : the char list `h` starts with `n`. -/
def startsWithC : List Char → List Char → Bool
  | [], _ => true
  | _ :: _, [] => false
  | a :: as, b :: bs => a == b && startsWithC as bs

/-- Python substring containment `needle in hay` on char lists. -/
def containsC (needle : List Char) : List Char → Bool
  | [] => needle.isEmpty
  | c :: rest => startsWithC needle (c :: rest) || containsC needle rest

/-- Python `str.lower()` (ASCII case folding), as a char list. -/
def lowerStr (s : String) : List Char := s.toList.map Char.toLower

/-- Python whitespace stripped by `str.strip()`. -/
def isPySpace (c : Char) : Bool :=
  c == ' ' || c == '\t' || c == '\n' || c == '\r' || c == '\x0b' || c == '\x0c'

/-- Python `str.strip()` on char lists. -/
def stripC (s : List Char) : List Char :=
  ((s.dropWhile isPySpace).reverse.dropWhile isPySpace).reverse

/-- Python string slice `s[:n]` for a nonnegative bound. -/
def pyTake (n : ℕ) (s : String) : String := ⟨s.toList.take n⟩

/-- Case-insensitive substring test: Django `icontains`, and the lowered
comparisons done by hand in `get_rag_enhanced_memories`. -/
def icontains (needle hay : String) : Bool := containsC (lowerStr needle) (lowerStr hay)

/-! ### IEEE-754 binary64 arithmetic on the reachable domain

All values are scaled by 2 ^ 56.  A positive double in the binade
[2 ^ e, 2 ^ (e+1)) is a multiple of 2 ^ (e - 52); scaled by 2 ^ 56 its grid
step ("ulp") is 2 ^ (e + 4).  For scaled values below 2 ^ 53 every multiple of
2 ^ (-56) is exactly representable, so the ulp is 1 there. -/

/-- Grid step of the binary64 representation at the magnitude of the scaled
value `n` (binades above 8.0 are unreachable in this program: scores never
exceed 17 * 0.1 + 0.2). -/
def ulpOf (n : ℤ) : ℤ :=
  if n < 2 ^ 53 then 1
  else if n < 2 ^ 54 then 2
  else if n < 2 ^ 55 then 4
  else if n < 2 ^ 56 then 8
  else if n < 2 ^ 57 then 16
  else if n < 2 ^ 58 then 32
  else if n < 2 ^ 59 then 64
  else 128

/-- Round `n` to the nearest multiple of `ulp`, ties to even multiple
(`n.fdiv ulp` is the floor quotient, `n - n.fdiv ulp * ulp` the remainder). -/
def roundEven (n ulp : ℤ) : ℤ :=
  if 2 * (n - n.fdiv ulp * ulp) < ulp then n.fdiv ulp * ulp
  else if ulp < 2 * (n - n.fdiv ulp * ulp) then (n.fdiv ulp + 1) * ulp
  else if n.fdiv ulp % 2 = 0 then n.fdiv ulp * ulp else (n.fdiv ulp + 1) * ulp

/-- Round an exact (scaled) value to the binary64 grid. -/
def roundD (n : ℤ) : ℤ := roundEven n (ulpOf n)

/-- Python float addition on scaled values: exact sum, then binary64 rounding. -/
def fadd (a b : ℤ) : ℤ := roundD (a + b)

/-- Python `min(a, b)`. -/
def pymin (a b : ℤ) : ℤ := if a ≤ b then a else b

/-- The double `0.1`, scaled by 2 ^ 56. -/
def d01 : ℤ := 7205759403792794

/-- The double `0.2`, scaled by 2 ^ 56. -/
def d02 : ℤ := 14411518807585588

/-- The double `0.3` (the literal in `process_ai_response`), scaled by 2 ^ 56. -/
def d03 : ℤ := 21617278211378380

/-- The double `0.7` (default `CHATBOT_LONG_TERM_IMPORTANCE_THRESHOLD`),
scaled by 2 ^ 56. -/
def d07 : ℤ := 50440315826549552

/-- The double `1.0`, scaled by 2 ^ 56. -/
def one56 : ℤ := 72057594037927936

/-- Rational value represented by a scaled float. -/
def qVal (n : ℤ) : ℚ := (n : ℚ) / 2 ^ 56

namespace MemoryManager

/-- The hard-coded keyword list of `extract_important_information`. -/
def importance_keywords : List String :=
  ["remember", "important", "never forget", "always", "prefer",
   "like", "dislike", "love", "hate", "birthday", "anniversary",
   "work", "job", "family", "hobby", "goal", "dream"]

/-- The keyword loop of `extract_important_information`: starting from 0.0,
float-add 0.1 for every keyword contained in the lowered message. -/
def rawScore (message_lower : List Char) : ℤ :=
  importance_keywords.foldl
    (fun acc kw => if containsC kw.toList message_lower then fadd acc d01 else acc) 0

/-- Result dict of `extract_important_information`. -/
structure MessageInfo where
  importance_score : ℤ
  contains_personal_info : Bool
  is_question : Bool
  is_request : Bool
deriving DecidableEq

/-- The personal-info markers of `extract_important_information`. -/
def personal_markers : List String := ["my", "i am", "i like", "i prefer"]

/-- The request markers of `extract_important_information`. -/
def request_markers : List String := ["please", "can you", "could you", "would you"]

/-- `MemoryManager.extract_important_information(message, is_from_user)`. -/
def extract_important_information (message : String) (is_from_user : Bool) : MessageInfo :=
  let message_lower := lowerStr message
  let s0 := rawScore message_lower
  let s1 := if is_from_user then fadd s0 d02 else s0
  { importance_score := pymin one56 s1
    contains_personal_info := personal_markers.any (fun w => containsC w.toList message_lower)
    is_question := (stripC message.toList).getLast? == some '?'
    is_request := request_markers.any (fun w => containsC w.toList message_lower) }

end MemoryManager

/-! ### The `ConversationMemory` table and the memory operations -/

/-- A row of the `ConversationMemory` model (`chatbot/models.py`).
`importance_score` is a float (scaled by 2 ^ 56); `last_accessed` has
`auto_now=True` (set on every save), `created_at` has `auto_now_add=True`. -/
structure ConversationMemory where
  id : ℕ
  user : ℕ
  memory_type : String
  title : String
  content : String
  context : List (String × PVal)
  importance_score : ℤ
  access_count : ℤ
  last_accessed : ℤ
  created_at : ℤ
  expires_at : Option ℤ
deriving DecidableEq

/-- The memory table together with the primary-key counter. -/
structure MemDB where
  mems : List ConversationMemory
  nextId : ℕ
deriving DecidableEq

/-- Well-formed table: primary keys are unique (guaranteed by the database). -/
def MemDB.WF (db : MemDB) : Prop := (db.mems.map (fun m => m.id)).Nodup

instance : DecidablePred MemDB.WF := fun db => by unfold MemDB.WF; infer_instance

/-- Exceptions raised by the modelled code paths. -/
inductive Err where
  /-- Django `Model.DoesNotExist` from `QuerySet.get()`. -/
  | doesNotExist
  /-- Django `MultipleObjectsReturned` from `QuerySet.get()`. -/
  | multipleObjectsReturned
  /-- Django: slicing a query set with a negative bound raises. -/
  | negativeIndexing
  /-- Django TypeError: `.delete()` on a sliced query set. -/
  | slicedDelete
  /-- Python TypeError: calling a non-callable. -/
  | typeError
  /-- Python AttributeError: member access on a shadowed attribute. -/
  | attributeError
deriving DecidableEq

namespace MemoryManager

/-- `CHATBOT_SHORT_TERM_MEMORY_LIMIT` default (memory_manager.py line 24). -/
def short_term_limit : ℕ := 20

/-- `CHATBOT_LONG_TERM_IMPORTANCE_THRESHOLD` default 0.7 (line 25). -/
def long_term_importance_threshold : ℤ := d07

/-- `order_by('-importance_score', '-last_accessed')`: `a` ranks before `b`. -/
def rankRel (a b : ConversationMemory) : Prop :=
  b.importance_score < a.importance_score ∨
    (a.importance_score = b.importance_score ∧ b.last_accessed ≤ a.last_accessed)

instance : DecidableRel rankRel := fun a b => by unfold rankRel; infer_instance

/-- `order_by('-last_accessed')`: `a` ranks before `b`. -/
def recencyRel (a b : ConversationMemory) : Prop := b.last_accessed ≤ a.last_accessed

instance : DecidableRel recencyRel := fun a b => by unfold recencyRel; infer_instance

/-- The dict produced by `MemoryManager._memory_to_dict` (exactly these keys;
timestamps are kept as integers rather than isoformat strings). -/
structure MemDict where
  id : ℕ
  title : String
  content : String
  context : List (String × PVal)
  importance_score : ℤ
  access_count : ℤ
  last_accessed : ℤ
  created_at : ℤ
deriving DecidableEq

/-- `MemoryManager._memory_to_dict`. -/
def memory_to_dict (m : ConversationMemory) : MemDict :=
  { id := m.id, title := m.title, content := m.content, context := m.context,
    importance_score := m.importance_score, access_count := m.access_count,
    last_accessed := m.last_accessed, created_at := m.created_at }

/-- `ConversationMemory.increment_access` (models.py): bump `access_count`,
and `save(update_fields=['access_count', 'last_accessed'])` writes the
`auto_now` field `last_accessed` as well, and nothing else. -/
def increment_access (m : ConversationMemory) (now : ℤ) : ConversationMemory :=
  { m with access_count := m.access_count + 1, last_accessed := now }

/-- The query set `filter(user=..., memory_type='short_term')`. -/
def shortTermQS (u : ℕ) (db : MemDB) : List ConversationMemory :=
  db.mems.filter (fun m => m.user == u && m.memory_type == "short_term")

/-- The dicts returned by `get_short_term_memory`: most recently accessed
first, capped at `k`. -/
def stDicts (u : ℕ) (db : MemDB) (k : ℕ) : List MemDict :=
  ((List.insertionSort recencyRel (shortTermQS u db)).take k).map memory_to_dict

/-- `MemoryManager.get_short_term_memory(limit=None)`.  Reads only: no row is
saved, so the table is returned unchanged.  A negative `limit` makes the
query-set slice raise (inside `get_rag_enhanced_memories` this is caught). -/
def get_short_term_memory (u : ℕ) (db : MemDB) (limit : Option ℤ) :
    Except Err (List MemDict × MemDB) :=
  if limit.getD (short_term_limit : ℤ) < 0 then .error .negativeIndexing
  else .ok (stDicts u db (limit.getD (short_term_limit : ℤ)).toNat, db)

/-- The query set of `get_long_term_memory`: the user's long-term rows,
filtered by the query when it is truthy (Python `if query:` is falsy for
`None` and for the empty string). -/
def longTermQS (u : ℕ) (db : MemDB) (query : Option String) : List ConversationMemory :=
  match query with
  | some q =>
    if q ≠ "" then
      (db.mems.filter (fun m => m.user == u && m.memory_type == "long_term")).filter
        (fun m => icontains q m.title || icontains q m.content)
    else db.mems.filter (fun m => m.user == u && m.memory_type == "long_term")
  | none => db.mems.filter (fun m => m.user == u && m.memory_type == "long_term")

/-- The rows evaluated by `get_long_term_memory`: ranked, capped at `limit`. -/
def takenLT (u : ℕ) (db : MemDB) (query : Option String) (limit : ℤ) :
    List ConversationMemory :=
  (List.insertionSort rankRel (longTermQS u db query)).take limit.toNat

/-- The save loop of `get_long_term_memory`: one `increment_access` save per
returned row, applied to the matching table row. -/
def bumpAll (taken : List ConversationMemory) (db : MemDB) (now : ℤ) : MemDB :=
  taken.foldl (fun acc m =>
    { acc with mems := acc.mems.map (fun x =>
        if x.id == m.id then increment_access x now else x) }) db

/-- The dicts returned by `get_long_term_memory`, built from the in-memory
objects after their increments. -/
def ltDicts (u : ℕ) (db : MemDB) (query : Option String) (limit : ℤ) (now : ℤ) :
    List MemDict :=
  (takenLT u db query limit).map (fun m => memory_to_dict (increment_access m now))

/-- `MemoryManager.get_long_term_memory(query=None, limit=10)`.  Every
returned row has `increment_access` applied in a save loop (the observable
read side effect); the dicts are built from the in-memory objects after the
increments. -/
def get_long_term_memory (u : ℕ) (db : MemDB) (query : Option String) (limit : ℤ)
    (now : ℤ) : Except Err (List MemDict × MemDB) :=
  if limit < 0 then .error .negativeIndexing
  else .ok (ltDicts u db query limit now, bumpAll (takenLT u db query limit) db now)

/-- Pass 1 of `_cleanup_short_term_memory`: delete the user's expired
short-term rows (`expires_at__lt=now`; a NULL `expires_at` never matches). -/
def cleanupPass1 (u : ℕ) (db : MemDB) (now : ℤ) : MemDB :=
  { db with mems := db.mems.filter (fun m =>
      !(m.user == u && m.memory_type == "short_term" &&
        m.expires_at.any (fun e => decide (e < now)))) }

/-- `MemoryManager._cleanup_short_term_memory`.  After pass 1, pass 2 builds
the sliced query set `...order_by(...)[short_term_limit:]`; if it is
nonempty, `.delete()` on it raises TypeError in Django, which this model
surfaces as `Err.slicedDelete` (the pass-1 deletions are already committed at
that point; the `Except` result drops that intermediate state). -/
def cleanup_short_term_memory (u : ℕ) (db : MemDB) (now : ℤ) : Except Err MemDB :=
  if ((List.insertionSort rankRel (shortTermQS u (cleanupPass1 u db now))).drop
      short_term_limit).isEmpty
  then .ok (cleanupPass1 u db now) else .error .slicedDelete

/-- The row created by `store_short_term_memory`: `expires_at = now + 24h`,
`created_at` and `last_accessed` set by the database on create. -/
def mkShortTermRow (u : ℕ) (db : MemDB) (title content : String)
    (context : List (String × PVal)) (importance : ℤ) (now : ℤ) : ConversationMemory :=
  { id := db.nextId, user := u, memory_type := "short_term", title := title,
    content := content, context := context, importance_score := importance,
    access_count := 0, last_accessed := now, created_at := now,
    expires_at := some (now + 24) }

/-- `MemoryManager.store_short_term_memory(title, content, context=None,
importance=0.5)`: create the row with `expires_at = now + 24h`, then run the
cleanup. -/
def store_short_term_memory (u : ℕ) (db : MemDB) (title content : String)
    (context : List (String × PVal)) (importance : ℤ) (now : ℤ) :
    Except Err (ConversationMemory × MemDB) :=
  match cleanup_short_term_memory u
      { mems := db.mems ++ [mkShortTermRow u db title content context importance now],
        nextId := db.nextId + 1 } now with
  | .ok db2 => .ok (mkShortTermRow u db title content context importance now, db2)
  | .error e => .error e

/-- `MemoryManager.store_long_term_memory(title, content, context=None,
importance=0.8)`: create the row with no expiry; no cleanup runs. -/
def store_long_term_memory (u : ℕ) (db : MemDB) (title content : String)
    (context : List (String × PVal)) (importance : ℤ) (now : ℤ) :
    ConversationMemory × MemDB :=
  let memory : ConversationMemory :=
    { id := db.nextId, user := u, memory_type := "long_term", title := title,
      content := content, context := context, importance_score := importance,
      access_count := 0, last_accessed := now, created_at := now,
      expires_at := none }
  (memory, { mems := db.mems ++ [memory], nextId := db.nextId + 1 })

/-- The `.get(id=..., user=..., memory_type='short_term')` condition in
`promote_to_long_term`. -/
def promoteQuery (u : ℕ) (mid : ℕ) (m : ConversationMemory) : Bool :=
  m.id == mid && m.user == u && m.memory_type == "short_term"

/-- The successful-promotion write: `memory_type = 'long_term'`,
`expires_at = None`, and `save()` also writes the `auto_now` field
`last_accessed`; every other field is untouched. -/
def promoteUpdate (now : ℤ) (m : ConversationMemory) : ConversationMemory :=
  { m with memory_type := "long_term", expires_at := none, last_accessed := now }

/-- `MemoryManager.promote_to_long_term(short_term_memory_id)`.  `get`
raising `DoesNotExist` is caught (returns `False`); a hypothetical multiple
match would propagate (impossible on a well-formed table). -/
def promote_to_long_term (u : ℕ) (db : MemDB) (mid : ℕ) (now : ℤ) :
    Except Err (Bool × MemDB) :=
  match db.mems.filter (promoteQuery u mid) with
  | [] => .ok (false, db)
  | [m] =>
    if long_term_importance_threshold ≤ m.importance_score then
      .ok (true, { db with mems := db.mems.map (fun x =>
        if promoteQuery u mid x then promoteUpdate now x else x) })
    else .ok (false, db)
  | _ :: _ :: _ => .error .multipleObjectsReturned

/-- Element of the list returned by `get_rag_enhanced_memories`: exactly the
keys `content`, `context`, `importance`, `type`. -/
structure RagMemory where
  content : String
  context : List (String × PVal)
  importance : ℤ
  type : String
deriving DecidableEq

/-- The reshaping of `get_rag_enhanced_memories`: exactly the keys `content`,
`context`, `importance`, `type = "personal_memory"`. -/
def ragFmt (m : MemDict) : RagMemory :=
  { content := m.content, context := m.context,
    importance := m.importance_score, type := "personal_memory" }

/-- `MemoryManager.get_rag_enhanced_memories(query, limit=5)`.  The whole body
runs under `try/except Exception`, which returns `[]` on any internal error
(the only reachable one is a negative `limit`, raised while slicing before any
write happens, so the table is unchanged on that path). -/
def get_rag_enhanced_memories (u : ℕ) (db : MemDB) (query : String) (limit : ℤ)
    (now : ℤ) : List RagMemory × MemDB :=
  match get_long_term_memory u db (some query) (limit.fdiv 2) now with
  | .error _ => ([], db)
  | .ok (long_term_memories, db2) =>
    match get_short_term_memory u db2 (some (limit.fdiv 2)) with
    | .error _ => ([], db2)
    | .ok (short_term_memories, _) =>
      ((long_term_memories ++
        (if query ≠ "" then
          (short_term_memories.filter (fun m =>
              icontains query m.title || icontains query m.content)).take (limit.fdiv 2).toNat
         else short_term_memories)).map ragFmt, db2)

end MemoryManager

/-! ### Conversations, conversation context, and the Context Manager -/

/-- The fields of `Conversation` relevant to ownership checks. -/
structure Conversation where
  id : ℤ
  user : ℕ
deriving DecidableEq

/-- A row of `ConversationContext` (`chatbot/models.py`). -/
structure ConversationContext where
  conversation : ℤ
  current_topic : String
  user_mood : String
  conversation_flow : List String
  active_memories : List ℤ
  context_variables : List (String × PVal)
deriving DecidableEq

namespace MemoryManager

/-- `MemoryManager.update_conversation_context(conversation_id, **kwargs)`,
modelled at its single call site in `process_ai_response`, where the kwargs
are exactly `context_variables=...` (a real field, so the `hasattr` guard
passes and `setattr` overwrites it).  A conversation that does not exist or is
not owned by the caller raises `Conversation.DoesNotExist`, which the source
catches and turns into a logged warning (no state change). -/
def update_conversation_context_vars (u : ℕ) (conversation_id : ℤ)
    (convs : List Conversation) (ctxs : List ConversationContext)
    (cv : List (String × PVal)) : List ConversationContext :=
  if convs.any (fun c => c.id == conversation_id && c.user == u) then
    if ctxs.any (fun c => c.conversation == conversation_id) then
      ctxs.map (fun c =>
        if c.conversation == conversation_id then { c with context_variables := cv } else c)
    else
      ctxs ++ [{ conversation := conversation_id, current_topic := "", user_mood := "",
                 conversation_flow := [], active_memories := [], context_variables := cv }]
  else ctxs

end MemoryManager

namespace ContextManager

/-- `ContextManager.process_ai_response(ai_response, user_message)`: score
both texts; store the user message as a short-term memory (tagged with the
conversation id) when its importance exceeds the float literal `0.3`; update
the conversation context when the message carries personal info.  The score of
the AI response is computed but unused by this method. -/
def process_ai_response (u : ℕ) (conversation_id : ℤ) (db : MemDB)
    (convs : List Conversation) (ctxs : List ConversationContext)
    (ai_response user_message : String) (now : ℤ) :
    Except Err (MemDB × List ConversationContext) :=
  let user_info := MemoryManager.extract_important_information user_message true
  let _ai_info := MemoryManager.extract_important_information ai_response false
  let stored : Except Err MemDB :=
    if d03 < user_info.importance_score then
      match MemoryManager.store_short_term_memory u db
          ("User message: " ++ pyTake 50 user_message ++ "...") user_message
          [("conversation_id", PVal.i conversation_id)] user_info.importance_score now with
      | .ok (_, db2) => .ok db2
      | .error e => .error e
    else .ok db
  match stored with
  | .error e => .error e
  | .ok db2 =>
    let ctxs2 :=
      if user_info.contains_personal_info then
        MemoryManager.update_conversation_context_vars u conversation_id convs ctxs
          [("has_personal_info", PVal.b true), ("last_personal_info", PVal.s user_message)]
      else ctxs
    .ok (db2, ctxs2)

end ContextManager

/-! ### The `UserPersonality` profile

`update_user_personality` applies `setattr(personality, key, value)` for every
kwarg whose name passes `hasattr(personality, key)`.  A Django model instance
is modelled as its attribute dict: the data attributes of the instance (the
model fields plus the foreign-key column attribute `user_id`) together with
the non-field attributes of the `django.db.models.Model` API (public methods
such as `save` and `full_clean`, the generated exception classes, and the
private save machinery `_state`, `_meta`, `_save_table`, ...).  `hasattr` is
true for the attribute dict keys and for those non-field attribute names; for
identifier names outside both, `hasattr` is false and the kwarg is ignored.
Python exposes further double-underscore attributes, handled by the
descriptor protocol; they are outside this model, as is the aliasing of `id`
by the `pk` property.  Shadowing an attribute that `personality.save()` uses
internally makes that final call raise: TypeError when the shadowed attribute
is one of the methods `save()` calls, AttributeError when it is `_meta` or
`_state`, whose members `save()` reads.  Database-level write errors (an
ill-typed field value reaching the backend) are persistence concerns outside
the model. -/

/-- A `UserPersonality` instance as its Python attribute dict. -/
structure UserPersonalityObj where
  attrs : List (String × PVal)
deriving DecidableEq

namespace MemoryManager

/-- The model fields of `UserPersonality` (models.py). -/
def personality_field_names : List String :=
  ["id", "user", "communication_style", "interests", "preferences",
   "conversation_patterns", "created_at", "updated_at"]

/-- Data attribute keys of an instance: the model fields plus the
foreign-key column attribute `user_id`. -/
def personality_attr_keys : List String := personality_field_names ++ ["user_id"]

/-- Non-field attributes of a `UserPersonality` instance — the
`django.db.models.Model` API surface: public methods, the generated
exception classes, and the private save machinery.  `hasattr` is also true
for all of these. -/
def personality_nonfield_attrs : List String :=
  ["save", "save_base", "delete", "refresh_from_db", "full_clean", "clean",
   "clean_fields", "validate_unique", "get_deferred_fields",
   "prepare_database_save", "serializable_value", "date_error_message",
   "unique_error_message", "pk", "DoesNotExist", "MultipleObjectsReturned",
   "_state", "_meta", "_prepare_related_fields_for_save", "_save_parents",
   "_save_table", "_do_insert", "_do_update", "_get_pk_val", "_set_pk_val",
   "_get_unique_checks"]

/-- The non-field attributes `Model.save()` touches unconditionally, in its
access order: `personality.save` itself; inside it
`_prepare_related_fields_for_save` (a call, which reads `self._meta`) and
`get_deferred_fields`; then `save_base`, and inside that `_save_parents`,
`_save_table` and finally `self._state`.  Shadowing any of them with a
stored value makes `personality.save()` raise. -/
def save_internal_attrs : List String :=
  ["save", "_prepare_related_fields_for_save", "_meta", "get_deferred_fields",
   "save_base", "_save_parents", "_save_table", "_state"]

/-- The `get_or_create` defaults of `update_user_personality` (the `id` and
`user_id` values are assigned by the database on create; their values are
not tracked). -/
def default_personality_attrs (u : ℕ) (now : ℤ) : List (String × PVal) :=
  [("id", PVal.i 0), ("user", PVal.i u), ("user_id", PVal.i u),
   ("communication_style", PVal.s "casual"),
   ("interests", PVal.strList []), ("preferences", PVal.strDict []),
   ("conversation_patterns", PVal.strDict []), ("created_at", PVal.i now),
   ("updated_at", PVal.i now)]

/-- Python `hasattr(personality, k)`. -/
def hasattrP (p : UserPersonalityObj) (k : String) : Bool :=
  p.attrs.any (fun kv => kv.1 == k) || personality_nonfield_attrs.contains k

/-- Python `setattr(personality, k, v)`. -/
def setattrP (p : UserPersonalityObj) (k : String) (v : PVal) : UserPersonalityObj :=
  if p.attrs.any (fun kv => kv.1 == k) then
    { attrs := p.attrs.map (fun kv => if kv.1 == k then (k, v) else kv) }
  else { attrs := p.attrs ++ [(k, v)] }

/-- Python `getattr(personality, k)` on the attribute dict. -/
def pyGetAttr (p : UserPersonalityObj) (k : String) : Option PVal :=
  (p.attrs.find? (fun kv => kv.1 == k)).map (fun kv => kv.2)

/-- `p` carries an instance attribute named `s` in its attribute dict. -/
def hasKeyP (p : UserPersonalityObj) (s : String) : Bool :=
  p.attrs.any (fun kv => kv.1 == s)

/-- The exception `personality.save()` raises when one of the attributes of
`save_internal_attrs` has been shadowed by a stored value, following the
access order of `Model.save` (TypeError for a shadowed method that gets
called, AttributeError for shadowed `_meta`/`_state`, whose members are
read); `none` when nothing `save()` uses is shadowed. -/
def save_shadow_error (p : UserPersonalityObj) : Option Err :=
  if hasKeyP p "save" then some .typeError
  else if hasKeyP p "_prepare_related_fields_for_save" then some .typeError
  else if hasKeyP p "_meta" then some .attributeError
  else if hasKeyP p "get_deferred_fields" then some .typeError
  else if hasKeyP p "save_base" then some .typeError
  else if hasKeyP p "_save_parents" then some .typeError
  else if hasKeyP p "_save_table" then some .typeError
  else if hasKeyP p "_state" then some .attributeError
  else none

/-- `MemoryManager.update_user_personality(**kwargs)`: `get_or_create` with
defaults, the `hasattr`/`setattr` loop in kwargs order, then
`personality.save()` — which raises if its machinery was shadowed by the
loop, and otherwise also writes the `auto_now` field `updated_at`. -/
def update_user_personality (u : ℕ) (st : Option UserPersonalityObj)
    (kwargs : List (String × PVal)) (now : ℤ) : Except Err UserPersonalityObj :=
  let personality := st.getD ⟨default_personality_attrs u now⟩
  let personality := kwargs.foldl
    (fun acc kv => if hasattrP acc kv.1 then setattrP acc kv.1 kv.2 else acc) personality
  match save_shadow_error personality with
  | some e => .error e
  | none => .ok (setattrP personality "updated_at" (PVal.i now))

/-- Well-formed personality state: a stored instance has every data attribute
among its attribute dict keys and no dict key outside the data attributes (in
particular none of the `Model` machinery is shadowed). -/
def PersonalityWF : Option UserPersonalityObj → Prop
  | none => True
  | some p =>
    (∀ k ∈ personality_attr_keys, p.attrs.any (fun kv => kv.1 == k) = true) ∧
      p.attrs.all (fun kv => personality_attr_keys.contains kv.1) = true

instance : DecidablePred PersonalityWF := fun st => by
  unfold PersonalityWF; cases st <;> infer_instance

end MemoryManager

/-! ### Basic facts about the float model and the scorer -/

lemma ulpOf_pos (n : ℤ) : 0 < ulpOf n := by
  unfold ulpOf; split_ifs <;> norm_num

lemma roundEven_nonneg {n ulp : ℤ} (hn : 0 ≤ n) (hu : 0 < ulp) : 0 ≤ roundEven n ulp := by
  unfold roundEven
  have hq : 0 ≤ n.fdiv ulp := Int.fdiv_nonneg hn hu.le
  split_ifs
  · exact mul_nonneg hq hu.le
  · exact mul_nonneg (by linarith) hu.le
  · exact mul_nonneg hq hu.le
  · exact mul_nonneg (by linarith) hu.le

lemma roundD_nonneg {n : ℤ} (h : 0 ≤ n) : 0 ≤ roundD n :=
  roundEven_nonneg h (ulpOf_pos n)

lemma fadd_nonneg {a b : ℤ} (ha : 0 ≤ a) (hb : 0 ≤ b) : 0 ≤ fadd a b :=
  roundD_nonneg (by linarith)

lemma d01_nonneg : (0 : ℤ) ≤ d01 := by norm_num [d01]

lemma d02_nonneg : (0 : ℤ) ≤ d02 := by norm_num [d02]

lemma pymin_nonneg {a b : ℤ} (ha : 0 ≤ a) (hb : 0 ≤ b) : 0 ≤ pymin a b := by
  unfold pymin; split_ifs <;> assumption

lemma pymin_le_left (a b : ℤ) : pymin a b ≤ a := by
  unfold pymin; split_ifs with h
  · exact le_refl a
  · exact le_of_not_le h

lemma qVal_nonneg {n : ℤ} (h : 0 ≤ n) : 0 ≤ qVal n := by
  unfold qVal
  apply div_nonneg _ (by positivity)
  exact_mod_cast h

lemma qVal_le_one {n : ℤ} (h : n ≤ one56) : qVal n ≤ 1 := by
  unfold qVal
  rw [div_le_one (by positivity)]
  have : ((2 : ℚ) ^ 56) = ((one56 : ℤ) : ℚ) := by norm_num [one56]
  rw [this]
  exact_mod_cast h

namespace MemoryManager

lemma score_foldl_nonneg (kws : List String) (l : List Char) (acc : ℤ) (h : 0 ≤ acc) :
    0 ≤ kws.foldl (fun acc kw => if containsC kw.toList l then fadd acc d01 else acc) acc := by
  induction kws generalizing acc with
  | nil => exact h
  | cons k ks ih =>
    simp only [List.foldl_cons]
    apply ih
    split_ifs
    · exact fadd_nonneg h d01_nonneg
    · exact h

lemma rawScore_nonneg (l : List Char) : 0 ≤ rawScore l :=
  score_foldl_nonneg _ _ 0 le_rfl

lemma score_foldl_congr (kws : List String) (l1 l2 : List Char) (acc : ℤ)
    (h : ∀ kw ∈ kws, containsC kw.toList l1 = containsC kw.toList l2) :
    kws.foldl (fun acc kw => if containsC kw.toList l1 then fadd acc d01 else acc) acc =
      kws.foldl (fun acc kw => if containsC kw.toList l2 then fadd acc d01 else acc) acc := by
  induction kws generalizing acc with
  | nil => rfl
  | cons k ks ih =>
    simp only [List.foldl_cons]
    rw [h k (List.mem_cons_self k ks)]
    split_ifs <;> exact ih _ (fun kw hkw => h kw (List.mem_cons_of_mem k hkw))

lemma extract_score_eq (message : String) (b : Bool) :
    (extract_important_information message b).importance_score =
      pymin one56 (if b then fadd (rawScore (lowerStr message)) d02
                   else rawScore (lowerStr message)) := rfl

end MemoryManager

/-- Claim C4: for every text and every value of `is_from_user`, the importance
score lies in [0, 1]; the score depends only on which keywords of the fixed
set occur in the text (so repeats of a keyword cannot contribute more than its
single 0.1 increment), and the flat 0.2 is float-added exactly when
`is_from_user` is true (before the final clamp). -/
theorem C4_score_bounds (message : String) (is_from_user : Bool) :
    0 ≤ qVal (MemoryManager.extract_important_information message is_from_user).importance_score ∧
    qVal (MemoryManager.extract_important_information message is_from_user).importance_score ≤ 1 ∧
    (∀ message2 : String,
      (∀ kw ∈ MemoryManager.importance_keywords,
          containsC kw.toList (lowerStr message) = containsC kw.toList (lowerStr message2)) →
      (MemoryManager.extract_important_information message is_from_user).importance_score =
        (MemoryManager.extract_important_information message2 is_from_user).importance_score) ∧
    (MemoryManager.extract_important_information message true).importance_score =
      pymin one56 (fadd (MemoryManager.rawScore (lowerStr message)) d02) ∧
    (MemoryManager.extract_important_information message false).importance_score =
      pymin one56 (MemoryManager.rawScore (lowerStr message)) := by
  have hraw : 0 ≤ MemoryManager.rawScore (lowerStr message) :=
    MemoryManager.rawScore_nonneg _
  have hbody : 0 ≤ if is_from_user then
      fadd (MemoryManager.rawScore (lowerStr message)) d02
    else MemoryManager.rawScore (lowerStr message) := by
    split_ifs
    · exact fadd_nonneg hraw d02_nonneg
    · exact hraw
  refine ⟨?_, ?_, ?_, rfl, rfl⟩
  · rw [MemoryManager.extract_score_eq]
    exact qVal_nonneg (pymin_nonneg (by norm_num [one56]) hbody)
  · rw [MemoryManager.extract_score_eq]
    exact qVal_le_one (pymin_le_left _ _)
  · intro message2 hm
    rw [MemoryManager.extract_score_eq, MemoryManager.extract_score_eq]
    have : MemoryManager.rawScore (lowerStr message) =
        MemoryManager.rawScore (lowerStr message2) :=
      MemoryManager.score_foldl_congr _ _ _ 0 hm
    rw [this]

/-- Witness for C4 at concrete inputs. -/
theorem C4_score_bounds_witness :
    0 ≤ qVal (MemoryManager.extract_important_information "I love my job" true).importance_score ∧
    qVal (MemoryManager.extract_important_information "I love my job" true).importance_score ≤ 1 ∧
    (MemoryManager.extract_important_information "I love my job" true).importance_score =
      (MemoryManager.extract_important_information "job love" true).importance_score :=
  ⟨(C4_score_bounds "I love my job" true).1, (C4_score_bounds "I love my job" true).2.1,
    (C4_score_bounds "I love my job" true).2.2.1 "job love" (by decide)⟩

/-- Claim C5: on "I really love my job, please remember this" with
`is_from_user = true` the score is exactly 0.5 (the float sum
0.1 + 0.1 + 0.1 + 0.2 rounds to exactly one half) and `is_request` is true. -/
theorem C5_exact_score :
    qVal (MemoryManager.extract_important_information
        "I really love my job, please remember this" true).importance_score = 1 / 2 ∧
    (MemoryManager.extract_important_information
        "I really love my job, please remember this" true).is_request = true := by
  constructor
  · have h : (MemoryManager.extract_important_information
        "I really love my job, please remember this" true).importance_score = 2 ^ 55 := by
      decide
    rw [h]; unfold qVal; norm_num
  · decide

deriving instance DecidableEq for Except

/-! ### The end-to-end scenario of claim C1 -/

/-- The apostrophe character. -/
def apos : Char := Char.ofNat 39

/-- The user message of the C1 scenario. -/
def c1_message : String := "My dog" ++ String.mk [apos] ++ "s name is Max and I love him"

/-- Counterexample to claim C1: the importance score of the C1 message is not
exactly 3/10.  Python computes `0.0 + 0.1 + 0.2` in binary64, which rounds to
0.30000000000000004 (scaled: 21617278211378384), strictly above 0.3. -/
theorem C1_counterexample :
    qVal (MemoryManager.extract_important_information c1_message true).importance_score
      ≠ 3 / 10 := by
  have h : (MemoryManager.extract_important_information c1_message true).importance_score
      = 21617278211378384 := by decide
  rw [h]; unfold qVal; norm_num

/-- The short-term memory row that `process_ai_response` creates in the C1
scenario (user 0, conversation 7, empty table, now = 100). -/
def c1_expected_memory : ConversationMemory :=
  { id := 0, user := 0, memory_type := "short_term",
    title := "User message: " ++ pyTake 50 c1_message ++ "...",
    content := c1_message, context := [("conversation_id", PVal.i 7)],
    importance_score := 21617278211378384, access_count := 0,
    last_accessed := 100, created_at := 100, expires_at := some 124 }

/-- Amended claim C1: the score of the C1 message is the binary64 value
0.1 + 0.2 = 21617278211378384 / 2 ^ 56 (slightly above 0.3, not exactly 0.3),
and because it strictly exceeds the 0.3 threshold, `process_ai_response`
does persist the user message as a short-term memory tagged with the
conversation id. -/
theorem C1_amended :
    (MemoryManager.extract_important_information c1_message true).importance_score
      = 21617278211378384 ∧
    qVal (MemoryManager.extract_important_information c1_message true).importance_score
      = 21617278211378384 / 2 ^ 56 ∧
    d03 < (MemoryManager.extract_important_information c1_message true).importance_score ∧
    ContextManager.process_ai_response 0 7 ⟨[], 0⟩ [] [] "Sure!" c1_message 100 =
      .ok (⟨[c1_expected_memory], 1⟩, []) ∧
    c1_expected_memory.memory_type = "short_term" ∧
    c1_expected_memory.content = c1_message ∧
    c1_expected_memory.context = [("conversation_id", PVal.i 7)] := by
  have h : (MemoryManager.extract_important_information c1_message true).importance_score
      = 21617278211378384 := by decide
  refine ⟨h, ?_, by decide, by decide, rfl, rfl, rfl⟩
  rw [h]; unfold qVal; norm_num

/-! ### The eviction scenario of claim C2 -/

/-- 25 unexpired short-term memories of user 0 with distinct importance
scores (`expires_at = 1000`, cleanup runs at `now = 100`). -/
def c2_db : MemDB :=
  { mems := (List.range 25).map (fun i =>
      { id := i, user := 0, memory_type := "short_term", title := "t", content := "c",
        context := [], importance_score := (i : ℤ), access_count := 0, last_accessed := 0,
        created_at := 0, expires_at := some 1000 }), nextId := 25 }

/-- Claim C2 failing input: with 25 unexpired short-term memories the excess
pass builds the sliced query set `...[20:]`, finds it nonempty, and
`.delete()` on it raises Django TypeError instead of evicting the 5
lowest-ranked memories. -/
theorem C2_sliced_delete_raises :
    MemoryManager.cleanup_short_term_memory 0 c2_db 100 = .error Err.slicedDelete := by
  decide

/-! ### Claim C3: the promotion contract -/

lemma nodup_all_eq_length_le_one {α : Type} {l : List α} {a : α}
    (hn : l.Nodup) (h : ∀ x ∈ l, x = a) : l.length ≤ 1 := by
  match l with
  | [] => simp
  | [x] => simp
  | x :: y :: t =>
    exfalso
    have hx := h x (by simp)
    have hy := h y (by simp)
    rw [List.nodup_cons] at hn
    exact hn.1 (by rw [hx, ← hy]; simp)

lemma promoteQuery_eq_true {u mid : ℕ} {m : ConversationMemory} :
    MemoryManager.promoteQuery u mid m = true ↔
      (m.id = mid ∧ m.user = u ∧ m.memory_type = "short_term") := by
  simp [MemoryManager.promoteQuery, and_assoc]

lemma filter_promoteQuery_subsingleton (db : MemDB) (hwf : db.WF) (u mid : ℕ) :
    db.mems.filter (MemoryManager.promoteQuery u mid) = [] ∨
      ∃ m, db.mems.filter (MemoryManager.promoteQuery u mid) = [m] := by
  have hsub : List.Sublist
      ((db.mems.filter (MemoryManager.promoteQuery u mid)).map (fun m => m.id))
      (db.mems.map (fun m => m.id)) :=
    (List.filter_sublist db.mems).map _
  have hnd : ((db.mems.filter (MemoryManager.promoteQuery u mid)).map (fun m => m.id)).Nodup :=
    hwf.sublist hsub
  have hall : ∀ x ∈ (db.mems.filter (MemoryManager.promoteQuery u mid)).map (fun m => m.id),
      x = mid := by
    intro x hx
    obtain ⟨m, hm, rfl⟩ := List.mem_map.mp hx
    exact (promoteQuery_eq_true.mp (List.of_mem_filter hm)).1
  have hlen : (db.mems.filter (MemoryManager.promoteQuery u mid)).length ≤ 1 := by
    have := nodup_all_eq_length_le_one hnd hall
    simpa using this
  match hl : db.mems.filter (MemoryManager.promoteQuery u mid) with
  | [] => exact Or.inl rfl
  | [m] => exact Or.inr ⟨m, rfl⟩
  | x :: y :: t => rw [hl] at hlen; simp at hlen

/-- Claim C3: `promote_to_long_term` never raises on a well-formed table; it
returns true iff the named memory exists, belongs to the caller, is
short-term and clears the importance threshold; on success it rewrites
exactly that row via `promoteUpdate` (long-term, no expiry, other data
preserved) and leaves every other row alone; on failure it changes nothing;
and a second call on the already-promoted memory returns false with the
table unchanged (so `created_at` and `content` are untouched). -/
theorem C3_promote_contract (u : ℕ) (db : MemDB) (mid : ℕ) (now now2 : ℤ)
    (hwf : db.WF) :
    ∃ r db2, MemoryManager.promote_to_long_term u db mid now = .ok (r, db2) ∧
      (r = true ↔ ∃ m ∈ db.mems, m.id = mid ∧ m.user = u ∧ m.memory_type = "short_term" ∧
        MemoryManager.long_term_importance_threshold ≤ m.importance_score) ∧
      (r = false → db2 = db) ∧
      (r = true → ∀ x ∈ db.mems,
        (x.id = mid → MemoryManager.promoteUpdate now x ∈ db2.mems) ∧
        (x.id ≠ mid → x ∈ db2.mems)) ∧
      (r = true → MemoryManager.promote_to_long_term u db2 mid now2 = .ok (false, db2)) := by
  rcases filter_promoteQuery_subsingleton db hwf u mid with hf | ⟨m, hf⟩
  · refine ⟨false, db, ?_, ?_, fun _ => rfl, by simp, by simp⟩
    · unfold MemoryManager.promote_to_long_term
      rw [hf]
    · simp only [Bool.false_eq_true, false_iff]
      rintro ⟨m, hm, hid, hu, ht, _⟩
      have : m ∈ db.mems.filter (MemoryManager.promoteQuery u mid) :=
        List.mem_filter_of_mem hm (promoteQuery_eq_true.mpr ⟨hid, hu, ht⟩)
      rw [hf] at this
      simp at this
  · have hmf : m ∈ db.mems.filter (MemoryManager.promoteQuery u mid) := by rw [hf]; simp
    have hm_mem : m ∈ db.mems := List.mem_of_mem_filter hmf
    have hmq : MemoryManager.promoteQuery u mid m = true := List.of_mem_filter hmf
    have hm_props := promoteQuery_eq_true.mp hmq
    by_cases himp : MemoryManager.long_term_importance_threshold ≤ m.importance_score
    · set db2 : MemDB := { db with mems := db.mems.map (fun x =>
        if MemoryManager.promoteQuery u mid x then MemoryManager.promoteUpdate now x else x) }
        with hdb2
      have hrun : MemoryManager.promote_to_long_term u db mid now = .ok (true, db2) := by
        unfold MemoryManager.promote_to_long_term
        rw [hf]
        simp only [himp, if_true]
      have hfilter2 : db2.mems.filter (MemoryManager.promoteQuery u mid) = [] := by
        rw [List.filter_eq_nil_iff]
        intro y hy
        rw [hdb2] at hy
        obtain ⟨x, hx, rfl⟩ := List.mem_map.mp hy
        by_cases hq : MemoryManager.promoteQuery u mid x = true
        · simp only [hq, if_true]
          simp [MemoryManager.promoteQuery, MemoryManager.promoteUpdate]
        · simp only [hq, if_false]
          simpa using hq
      refine ⟨true, db2, hrun, ?_, by simp, ?_, ?_⟩
      · simp only [true_iff]
        exact ⟨m, hm_mem, hm_props.1, hm_props.2.1, hm_props.2.2, himp⟩
      · intro _ x hx
        constructor
        · intro hid
          have hxm : x = m := by
            have := List.inj_on_of_nodup_map hwf
            exact this hx hm_mem (by rw [hid, hm_props.1])
          subst hxm
          rw [hdb2]
          exact List.mem_map.mpr ⟨x, hx, by simp [hmq]⟩
        · intro hid
          have hq : ¬ MemoryManager.promoteQuery u mid x = true := by
            intro hq
            exact hid (promoteQuery_eq_true.mp hq).1
          rw [hdb2]
          exact List.mem_map.mpr ⟨x, hx, by simp [hq]⟩
      · intro _
        unfold MemoryManager.promote_to_long_term
        rw [hfilter2]
    · refine ⟨false, db, ?_, ?_, fun _ => rfl, by simp, by simp⟩
      · unfold MemoryManager.promote_to_long_term
        rw [hf]
        simp only [himp, if_false]
      · simp only [Bool.false_eq_true, false_iff]
        rintro ⟨m2, hm2, hid2, hu2, ht2, himp2⟩
        have hm2f : m2 ∈ db.mems.filter (MemoryManager.promoteQuery u mid) :=
          List.mem_filter_of_mem hm2 (promoteQuery_eq_true.mpr ⟨hid2, hu2, ht2⟩)
        rw [hf] at hm2f
        have : m2 = m := by simpa using hm2f
        exact himp (this ▸ himp2)

/-- A one-row table for the C3 witness: memory 1 of user 0, short-term,
importance 0.8 (scaled binary64). -/
def c3_db : MemDB :=
  { mems := [{ id := 1, user := 0, memory_type := "short_term", title := "t",
               content := "c", context := [], importance_score := 57646075230342352,
               access_count := 0, last_accessed := 0, created_at := 0,
               expires_at := some 24 }], nextId := 2 }

/-- Witness for C3 on the concrete table `c3_db`. -/
theorem C3_promote_contract_witness :
    ∃ r db2, MemoryManager.promote_to_long_term 0 c3_db 1 5 = .ok (r, db2) ∧
      (r = true ↔ ∃ m ∈ c3_db.mems, m.id = 1 ∧ m.user = 0 ∧ m.memory_type = "short_term" ∧
        MemoryManager.long_term_importance_threshold ≤ m.importance_score) ∧
      (r = false → db2 = c3_db) ∧
      (r = true → ∀ x ∈ c3_db.mems,
        (x.id = 1 → MemoryManager.promoteUpdate 5 x ∈ db2.mems) ∧
        (x.id ≠ 1 → x ∈ db2.mems)) ∧
      (r = true → MemoryManager.promote_to_long_term 0 db2 1 6 = .ok (false, db2)) :=
  C3_promote_contract 0 c3_db 1 5 6 (by decide)

/-! ### Claim C6: expiry discipline of the three creation paths -/

lemma promote_true_mem {u : ℕ} {db : MemDB} {mid : ℕ} {now : ℤ} {r : Bool} {db3 : MemDB}
    (h : MemoryManager.promote_to_long_term u db mid now = .ok (r, db3)) (hr : r = true)
    {x : ConversationMemory} (hx : x ∈ db.mems)
    (hq : MemoryManager.promoteQuery u mid x = true) :
    MemoryManager.promoteUpdate now x ∈ db3.mems := by
  subst hr
  unfold MemoryManager.promote_to_long_term at h
  split at h
  · simp at h
  · split at h
    · simp only [Except.ok.injEq, Prod.mk.injEq] at h
      rw [← h.2]
      exact List.mem_map.mpr ⟨x, hx, by simp [hq]⟩
    · simp at h
  · simp at h

/-- Claim C6: a memory created by `store_short_term_memory` has
`expires_at = created_at + 24h` and `created_at = now`; a memory created by
`store_long_term_memory` has no expiry; and a successful promotion rewrites
the promoted short-term row to the same row with `memory_type = long_term`,
`expires_at = None` and an updated `last_accessed` — all other fields,
`created_at` included, preserved (so no long-term memory ever carries an
expiry). -/
theorem C6_expiry_invariants (u : ℕ) (db : MemDB) (title content : String)
    (ctx : List (String × PVal)) (imp now : ℤ) (mid : ℕ)
    (m : ConversationMemory) (db2 : MemDB) (r : Bool) (db3 : MemDB) (x : ConversationMemory)
    (h1 : MemoryManager.store_short_term_memory u db title content ctx imp now = .ok (m, db2))
    (h2 : MemoryManager.promote_to_long_term u db mid now = .ok (r, db3))
    (hr : r = true)
    (hx : x ∈ db.mems) (hid : x.id = mid) (hu : x.user = u)
    (ht : x.memory_type = "short_term") :
    m.memory_type = "short_term" ∧ m.created_at = now ∧
      m.expires_at = some (m.created_at + 24) ∧
    (MemoryManager.store_long_term_memory u db title content ctx imp now).1.memory_type
        = "long_term" ∧
    (MemoryManager.store_long_term_memory u db title content ctx imp now).1.expires_at
        = none ∧
    (MemoryManager.store_long_term_memory u db title content ctx imp now).1.created_at
        = now ∧
    ({ x with memory_type := "long_term", expires_at := none, last_accessed := now }
        ∈ db3.mems) := by
  have hm : m.memory_type = "short_term" ∧ m.created_at = now ∧
      m.expires_at = some (now + 24) := by
    unfold MemoryManager.store_short_term_memory at h1
    split at h1
    · simp only [Except.ok.injEq, Prod.mk.injEq] at h1
      rw [← h1.1]
      exact ⟨rfl, rfl, rfl⟩
    · simp at h1
  refine ⟨hm.1, hm.2.1, ?_, rfl, rfl, rfl, ?_⟩
  · rw [hm.2.1]
    exact hm.2.2
  · exact promote_true_mem h2 hr hx (promoteQuery_eq_true.mpr ⟨hid, hu, ht⟩)

/-- The short-term row of `c3_db`, for the C6 witness. -/
def c6_x : ConversationMemory :=
  { id := 1, user := 0, memory_type := "short_term", title := "t", content := "c",
    context := [], importance_score := 57646075230342352, access_count := 0,
    last_accessed := 0, created_at := 0, expires_at := some 24 }

/-- The memory created by the C6 witness store call. -/
def c6_m : ConversationMemory :=
  { id := 2, user := 0, memory_type := "short_term", title := "a", content := "b",
    context := [], importance_score := 100, access_count := 0, last_accessed := 5,
    created_at := 5, expires_at := some 29 }

/-- Table after the C6 witness store call. -/
def c6_db2 : MemDB := { mems := [c6_x, c6_m], nextId := 3 }

/-- The C6 witness row after promotion. -/
def c6_x_promoted : ConversationMemory :=
  { c6_x with memory_type := "long_term", expires_at := none, last_accessed := 5 }

/-- Table after the C6 witness promotion. -/
def c6_db3 : MemDB := { mems := [c6_x_promoted], nextId := 2 }

/-- Witness for C6 on the concrete table `c3_db`. -/
theorem C6_expiry_invariants_witness :
    c6_m.memory_type = "short_term" ∧ c6_m.created_at = 5 ∧
      c6_m.expires_at = some (c6_m.created_at + 24) ∧
    (MemoryManager.store_long_term_memory 0 c3_db "a" "b" [] 100 5).1.memory_type
        = "long_term" ∧
    (MemoryManager.store_long_term_memory 0 c3_db "a" "b" [] 100 5).1.expires_at = none ∧
    (MemoryManager.store_long_term_memory 0 c3_db "a" "b" [] 100 5).1.created_at = 5 ∧
    ({ c6_x with memory_type := "long_term", expires_at := none, last_accessed := 5 }
        ∈ c6_db3.mems) :=
  C6_expiry_invariants 0 c3_db "a" "b" [] 100 5 1 c6_m c6_db2 true c6_db3 c6_x
    (by decide) (by decide) rfl (by decide) (by decide) (by decide) (by decide)

/-! ### Claims C7 and C10: `get_rag_enhanced_memories` -/

/-- The table state after the long-term read inside
`get_rag_enhanced_memories` (the increments of the returned long-term rows). -/
def ragMidDB (u : ℕ) (db : MemDB) (query : String) (limit now : ℤ) : MemDB :=
  MemoryManager.bumpAll (MemoryManager.takenLT u db (some query) (limit.fdiv 2)) db now

/-- Evaluation of `get_rag_enhanced_memories` when the halved limit is
nonnegative (the only case in which the inner reads do not raise). -/
lemma rag_eval (u : ℕ) (db : MemDB) (query : String) (limit now : ℤ)
    (hneg : ¬ limit.fdiv 2 < 0) :
    MemoryManager.get_rag_enhanced_memories u db query limit now =
      ((MemoryManager.ltDicts u db (some query) (limit.fdiv 2) now ++
        (if query ≠ "" then
          ((MemoryManager.stDicts u (ragMidDB u db query limit now)
              (limit.fdiv 2).toNat).filter (fun m =>
                icontains query m.title || icontains query m.content)).take
            (limit.fdiv 2).toNat
         else MemoryManager.stDicts u (ragMidDB u db query limit now)
            (limit.fdiv 2).toNat)).map MemoryManager.ragFmt,
       ragMidDB u db query limit now) := by
  have hlt : MemoryManager.get_long_term_memory u db (some query) (limit.fdiv 2) now =
      .ok (MemoryManager.ltDicts u db (some query) (limit.fdiv 2) now,
        ragMidDB u db query limit now) := by
    unfold MemoryManager.get_long_term_memory ragMidDB
    rw [if_neg hneg]
  have hst : MemoryManager.get_short_term_memory u (ragMidDB u db query limit now)
      (some (limit.fdiv 2)) =
      .ok (MemoryManager.stDicts u (ragMidDB u db query limit now) (limit.fdiv 2).toNat,
        ragMidDB u db query limit now) := by
    unfold MemoryManager.get_short_term_memory
    simp only [Option.getD_some]
    rw [if_neg hneg]
  simp only [MemoryManager.get_rag_enhanced_memories, hlt, hst]

lemma containsC_nil (l : List Char) : containsC [] l = true := by
  cases l <;> simp [containsC, startsWithC, List.isEmpty]

lemma icontains_empty (s : String) : icontains "" s = true := by
  unfold icontains
  have h : lowerStr "" = [] := rfl
  rw [h]
  exact containsC_nil _

lemma mem_shortTermQS {u : ℕ} {db : MemDB} {m : ConversationMemory}
    (h : m ∈ MemoryManager.shortTermQS u db) :
    m ∈ db.mems ∧ m.user = u ∧ m.memory_type = "short_term" := by
  unfold MemoryManager.shortTermQS at h
  have hp := List.of_mem_filter h
  have hmem := List.mem_of_mem_filter h
  have hx : m.user = u ∧ m.memory_type = "short_term" := by simpa using hp
  exact ⟨hmem, hx⟩

lemma mem_stDicts {u : ℕ} {db : MemDB} {k : ℕ} {d : MemoryManager.MemDict}
    (h : d ∈ MemoryManager.stDicts u db k) :
    ∃ m ∈ MemoryManager.shortTermQS u db, d = MemoryManager.memory_to_dict m := by
  unfold MemoryManager.stDicts at h
  obtain ⟨m, hm, rfl⟩ := List.mem_map.mp h
  exact ⟨m, (List.perm_insertionSort _ _).mem_iff.mp (List.mem_of_mem_take hm), rfl⟩

lemma longTermQS_eq_nil {u : ℕ} {db : MemDB} {query : String}
    (hq : ∀ m ∈ db.mems, m.user = u →
      icontains query m.title = false ∧ icontains query m.content = false) :
    MemoryManager.longTermQS u db (some query) = [] := by
  simp only [MemoryManager.longTermQS]
  split_ifs with hqe
  · rw [List.filter_eq_nil_iff]
    intro m hm
    have hmem := List.mem_of_mem_filter hm
    have hp : m.user = u ∧ m.memory_type = "long_term" := by
      simpa using List.of_mem_filter hm
    have hboth := hq m hmem hp.1
    simp [hboth.1, hboth.2]
  · rw [List.filter_eq_nil_iff]
    intro m hm hp
    have huser : m.user = u := by
      have hx : m.user = u ∧ m.memory_type = "long_term" := by simpa using hp
      exact hx.1
    have hfalse := (hq m hm huser).1
    rw [not_ne_iff.mp hqe] at hfalse
    rw [icontains_empty m.title] at hfalse
    exact Bool.true_eq_false.mp hfalse

lemma shortTermQS_eq_nil_of_empty_query {u : ℕ} {db : MemDB}
    (hq : ∀ m ∈ db.mems, m.user = u →
      icontains "" m.title = false ∧ icontains "" m.content = false) :
    MemoryManager.shortTermQS u db = [] := by
  unfold MemoryManager.shortTermQS
  rw [List.filter_eq_nil_iff]
  intro m hm hp
  have huser : m.user = u := by
    have hx : m.user = u ∧ m.memory_type = "short_term" := by simpa using hp
    exact hx.1
  have hfalse := (hq m hm huser).1
  rw [icontains_empty m.title] at hfalse
  exact Bool.true_eq_false.mp hfalse

lemma type_of_mem_ragFmt {e : MemoryManager.RagMemory} {l : List MemoryManager.MemDict}
    (h : e ∈ l.map MemoryManager.ragFmt) : e.type = "personal_memory" := by
  obtain ⟨m, _, rfl⟩ := List.mem_map.mp h
  rfl

/-- Claim C7: every element returned by `get_rag_enhanced_memories` has the
shape `{content, context, importance, type: "personal_memory"}` (the `RagMemory`
record with `type = "personal_memory"`), and a query matching no memory of the
user yields the empty list — for every query and every limit; internal
failures (the negative-limit slice) are caught and also yield the empty
list. -/
theorem C7_rag_shape_and_empty (u : ℕ) (db : MemDB) (query : String) (limit now : ℤ) :
    (∀ e ∈ (MemoryManager.get_rag_enhanced_memories u db query limit now).1,
        e.type = "personal_memory") ∧
    ((∀ m ∈ db.mems, m.user = u →
        icontains query m.title = false ∧ icontains query m.content = false) →
      (MemoryManager.get_rag_enhanced_memories u db query limit now).1 = []) := by
  constructor
  · intro e he
    unfold MemoryManager.get_rag_enhanced_memories at he
    split at he
    · simp at he
    · split at he
      · simp at he
      · exact type_of_mem_ragFmt he
  · intro hq
    by_cases hneg : limit.fdiv 2 < 0
    · have hlt : MemoryManager.get_long_term_memory u db (some query) (limit.fdiv 2) now =
          .error .negativeIndexing := by
        unfold MemoryManager.get_long_term_memory
        rw [if_pos hneg]
      simp only [MemoryManager.get_rag_enhanced_memories, hlt]
    · rw [rag_eval u db query limit now hneg]
      have hqs := longTermQS_eq_nil hq
      have htk : MemoryManager.takenLT u db (some query) (limit.fdiv 2) = [] := by
        unfold MemoryManager.takenLT
        rw [hqs]
        simp
      have hmid : ragMidDB u db query limit now = db := by
        unfold ragMidDB MemoryManager.bumpAll
        rw [htk]
        rfl
      have hlt : MemoryManager.ltDicts u db (some query) (limit.fdiv 2) now = [] := by
        unfold MemoryManager.ltDicts
        rw [htk]
        rfl
      rw [hlt, hmid]
      by_cases hqe : query = ""
      · subst hqe
        have hsq := shortTermQS_eq_nil_of_empty_query hq
        simp [MemoryManager.stDicts, hsq]
      · have hfilter : (MemoryManager.stDicts u db (limit.fdiv 2).toNat).filter
            (fun m => icontains query m.title || icontains query m.content) = [] := by
          rw [List.filter_eq_nil_iff]
          intro d hd
          obtain ⟨m, hms, rfl⟩ := mem_stDicts hd
          have hmm := mem_shortTermQS hms
          have hboth := hq m hmm.1 hmm.2.1
          simp [MemoryManager.memory_to_dict, hboth.1, hboth.2]
        simp [hqe, hfilter]

/-- Witness for C7 on the concrete table `c3_db` with a non-matching query. -/
theorem C7_rag_shape_and_empty_witness :
    (∀ e ∈ (MemoryManager.get_rag_enhanced_memories 0 c3_db "zzz" 5 0).1,
        e.type = "personal_memory") ∧
    (MemoryManager.get_rag_enhanced_memories 0 c3_db "zzz" 5 0).1 = [] :=
  ⟨(C7_rag_shape_and_empty 0 c3_db "zzz" 5 0).1,
    (C7_rag_shape_and_empty 0 c3_db "zzz" 5 0).2 (by decide)⟩

/-- Claim C10: for every query and nonnegative limit the result has at most
`2 * (limit // 2)` entries (at most `limit // 2` long-term plus `limit // 2`
short-term) — with the default limit 5 at most 4 — and for limit 0 or 1 the
result is empty regardless of the table contents. -/
theorem C10_rag_cap (u : ℕ) (db : MemDB) (query : String) (limit now : ℤ)
    (h : 0 ≤ limit) :
    (MemoryManager.get_rag_enhanced_memories u db query limit now).1.length
        ≤ 2 * (limit.fdiv 2).toNat ∧
    ((limit = 0 ∨ limit = 1) →
      (MemoryManager.get_rag_enhanced_memories u db query limit now).1 = []) := by
  have hneg : ¬ limit.fdiv 2 < 0 := not_lt.mpr (Int.fdiv_nonneg h (by norm_num))
  rw [rag_eval u db query limit now hneg]
  have hlt_len : (MemoryManager.ltDicts u db (some query) (limit.fdiv 2) now).length
      ≤ (limit.fdiv 2).toNat := by
    unfold MemoryManager.ltDicts MemoryManager.takenLT
    simp
  have hst_len : ∀ db2 : MemDB, (MemoryManager.stDicts u db2 (limit.fdiv 2).toNat).length
      ≤ (limit.fdiv 2).toNat := by
    intro db2
    unfold MemoryManager.stDicts
    simp
  constructor
  · simp only [List.length_map, List.length_append]
    have hb : (if query ≠ "" then
        ((MemoryManager.stDicts u (ragMidDB u db query limit now)
            (limit.fdiv 2).toNat).filter (fun m =>
              icontains query m.title || icontains query m.content)).take
          (limit.fdiv 2).toNat
       else MemoryManager.stDicts u (ragMidDB u db query limit now)
          (limit.fdiv 2).toNat).length ≤ (limit.fdiv 2).toNat := by
      split_ifs
      · exact List.length_take_le _ _
      · exact hst_len _
    omega
  · intro hl
    have hk : (limit.fdiv 2).toNat = 0 := by
      rcases hl with rfl | rfl <;> decide
    rw [hk]
    simp only [List.take_zero]
    have hz : ∀ db2 : MemDB, MemoryManager.stDicts u db2 0 = [] := by
      intro db2
      unfold MemoryManager.stDicts
      simp
    have hlz : MemoryManager.ltDicts u db (some query) (limit.fdiv 2) now = [] := by
      have := hlt_len
      rw [hk] at this
      exact List.eq_nil_of_length_eq_zero (Nat.le_zero.mp this)
    rw [hlz, hz]
    split_ifs <;> simp [hz]

/-- Witness for C10 at the default limit 5. -/
theorem C10_rag_cap_witness :
    (MemoryManager.get_rag_enhanced_memories 0 c3_db "t" 5 0).1.length
        ≤ 2 * ((5 : ℤ).fdiv 2).toNat ∧
    (((5 : ℤ) = 0 ∨ (5 : ℤ) = 1) →
      (MemoryManager.get_rag_enhanced_memories 0 c3_db "t" 5 0).1 = []) :=
  C10_rag_cap 0 c3_db "t" 5 0 (by decide)

/-! ### Claim C8: the read side effects of the two list operations -/

lemma increment_access_id (m : ConversationMemory) (now : ℤ) :
    (MemoryManager.increment_access m now).id = m.id := rfl

lemma bumpAll_mems_eq_map (taken : List ConversationMemory) (db : MemDB) (now : ℤ)
    (hnd : (taken.map (fun m => m.id)).Nodup) :
    (MemoryManager.bumpAll taken db now).mems = db.mems.map (fun x =>
      if taken.any (fun m => x.id == m.id) then MemoryManager.increment_access x now
      else x) := by
  induction taken generalizing db with
  | nil =>
    simp [MemoryManager.bumpAll]
  | cons t ts ih =>
    rw [List.map_cons, List.nodup_cons] at hnd
    have hstep : MemoryManager.bumpAll (t :: ts) db now =
        MemoryManager.bumpAll ts
          { db with mems := db.mems.map (fun x =>
              if x.id == t.id then MemoryManager.increment_access x now else x) } now := rfl
    rw [hstep, ih _ hnd.2]
    simp only [List.map_map]
    apply List.map_congr_left
    intro x _
    simp only [Function.comp_apply, List.any_cons]
    by_cases hxt : x.id = t.id
    · have hbeq : (x.id == t.id) = true := beq_iff_eq.mpr hxt
      have hnotts : ts.any (fun m => x.id == m.id) = false := by
        rw [List.any_eq_false]
        intro m hm
        simp only [beq_iff_eq]
        intro hxm
        exact hnd.1 (List.mem_map.mpr ⟨m, hm, by rw [← hxm]; exact hxt⟩)
      have hlam : (fun m : ConversationMemory =>
          (MemoryManager.increment_access x now).id == m.id) =
          (fun m : ConversationMemory => x.id == m.id) := rfl
      simp [hbeq, hlam, hnotts]
    · have hbeq : (x.id == t.id) = false := beq_eq_false_iff_ne.mpr hxt
      simp [hbeq]

lemma longTermQS_sublist (u : ℕ) (db : MemDB) (query : Option String) :
    List.Sublist (MemoryManager.longTermQS u db query) db.mems := by
  cases query with
  | none =>
    simp only [MemoryManager.longTermQS]
    exact List.filter_sublist _
  | some q =>
    simp only [MemoryManager.longTermQS]
    split_ifs
    · exact (List.filter_sublist _).trans (List.filter_sublist _)
    · exact List.filter_sublist _

lemma takenLT_ids_nodup {u : ℕ} {db : MemDB} (query : Option String) (limit : ℤ)
    (hwf : db.WF) :
    ((MemoryManager.takenLT u db query limit).map (fun m => m.id)).Nodup := by
  have hqs : ((MemoryManager.longTermQS u db query).map (fun m => m.id)).Nodup :=
    hwf.sublist ((longTermQS_sublist u db query).map _)
  have hsort : ((List.insertionSort MemoryManager.rankRel
      (MemoryManager.longTermQS u db query)).map (fun m => m.id)).Nodup :=
    (((List.perm_insertionSort MemoryManager.rankRel
      (MemoryManager.longTermQS u db query)).map (fun m => m.id)).nodup_iff).mpr hqs
  exact hsort.sublist ((List.take_sublist _ _).map _)

lemma mem_takenLT {u : ℕ} {db : MemDB} {query : Option String} {limit : ℤ}
    {m : ConversationMemory} (h : m ∈ MemoryManager.takenLT u db query limit) :
    m ∈ db.mems := by
  unfold MemoryManager.takenLT at h
  exact (longTermQS_sublist u db query).mem
    ((List.perm_insertionSort _ _).mem_iff.mp (List.mem_of_mem_take h))

/-- Claim C8: a successful `get_long_term_memory` rewrites exactly the rows it
returns, giving each `access_count + 1` and `last_accessed = now` (via
`increment_access`, which touches no other field), and leaves every other row
alone; each returned dict is the incremented image of a table row; and
`get_short_term_memory` never changes the table. -/
theorem C8_access_increment (u : ℕ) (db : MemDB) (query : Option String) (limit now : ℤ)
    (l : List MemoryManager.MemDict) (db2 : MemDB) (hwf : db.WF)
    (h : MemoryManager.get_long_term_memory u db query limit now = .ok (l, db2)) :
    db2.mems = db.mems.map (fun x =>
      if (MemoryManager.takenLT u db query limit).any (fun m => x.id == m.id)
      then MemoryManager.increment_access x now else x) ∧
    (∀ d ∈ l, ∃ m ∈ db.mems,
      d = MemoryManager.memory_to_dict (MemoryManager.increment_access m now)) ∧
    (∀ lim2 l2 db3,
      MemoryManager.get_short_term_memory u db lim2 = .ok (l2, db3) → db3 = db) := by
  unfold MemoryManager.get_long_term_memory at h
  split at h
  · simp at h
  · simp only [Except.ok.injEq, Prod.mk.injEq] at h
    refine ⟨?_, ?_, ?_⟩
    · rw [← h.2]
      exact bumpAll_mems_eq_map _ db now (takenLT_ids_nodup query limit hwf)
    · intro d hd
      rw [← h.1] at hd
      unfold MemoryManager.ltDicts at hd
      obtain ⟨m, hm, rfl⟩ := List.mem_map.mp hd
      exact ⟨m, mem_takenLT hm, rfl⟩
    · intro lim2 l2 db3 h2
      unfold MemoryManager.get_short_term_memory at h2
      split at h2
      · simp at h2
      · simp only [Except.ok.injEq, Prod.mk.injEq] at h2
        exact h2.2.symm

/-- A one-row long-term table for the C8 witness. -/
def c8_db : MemDB :=
  { mems := [{ id := 3, user := 0, memory_type := "long_term", title := "t",
               content := "c", context := [], importance_score := 100,
               access_count := 7, last_accessed := 2, created_at := 1,
               expires_at := none }], nextId := 4 }

/-- The dicts returned by the C8 witness read (access count bumped,
`last_accessed = now = 5`). -/
def c8_l : List MemoryManager.MemDict :=
  [{ id := 3, title := "t", content := "c", context := [], importance_score := 100,
     access_count := 8, last_accessed := 5, created_at := 1 }]

/-- The table after the C8 witness read. -/
def c8_db2 : MemDB :=
  { mems := [{ id := 3, user := 0, memory_type := "long_term", title := "t",
               content := "c", context := [], importance_score := 100,
               access_count := 8, last_accessed := 5, created_at := 1,
               expires_at := none }], nextId := 4 }

/-- Witness for C8 on the concrete table `c8_db`. -/
theorem C8_access_increment_witness :
    c8_db2.mems = c8_db.mems.map (fun x =>
      if (MemoryManager.takenLT 0 c8_db none 10).any (fun m => x.id == m.id)
      then MemoryManager.increment_access x 5 else x) ∧
    (∀ d ∈ c8_l, ∃ m ∈ c8_db.mems,
      d = MemoryManager.memory_to_dict (MemoryManager.increment_access m 5)) ∧
    (∀ lim2 l2 db3,
      MemoryManager.get_short_term_memory 0 c8_db lim2 = .ok (l2, db3) → db3 = c8_db) :=
  C8_access_increment 0 c8_db none 10 5 c8_l c8_db2 (by decide) (by decide)

/-! ### Claim C9: `update_user_personality` -/

/-- The attribute dict keys of `p` all name data attributes (model fields or
the foreign-key column attribute). -/
def keysBounded (p : UserPersonalityObj) : Bool :=
  p.attrs.all (fun kv => MemoryManager.personality_attr_keys.contains kv.1)

lemma setattrP_keysBounded {p : UserPersonalityObj} {k : String} {v : PVal}
    (hp : keysBounded p = true)
    (hk : MemoryManager.personality_attr_keys.contains k = true) :
    keysBounded (MemoryManager.setattrP p k v) = true := by
  unfold keysBounded at hp
  unfold keysBounded MemoryManager.setattrP
  rw [List.all_eq_true] at hp
  split_ifs
  · rw [List.all_eq_true]
    intro kv hkv
    obtain ⟨kv0, hkv0, rfl⟩ := List.mem_map.mp hkv
    by_cases h0 : (kv0.1 == k) = true
    · simp only [h0, if_true]
      exact hk
    · simp only [h0]
      rw [if_neg (by simp [h0])]
      exact hp kv0 hkv0
  · rw [List.all_eq_true]
    intro kv hkv
    rcases List.mem_append.mp hkv with h | h
    · exact hp kv h
    · have hkv2 : kv = (k, v) := by simpa using h
      subst hkv2
      exact hk

lemma fold_update_keysBounded (kwargs : List (String × PVal)) (p : UserPersonalityObj)
    (hp : keysBounded p = true)
    (hf : ∀ kv ∈ kwargs, kv.1 ∈ MemoryManager.personality_field_names) :
    keysBounded (kwargs.foldl (fun acc kv => if MemoryManager.hasattrP acc kv.1
      then MemoryManager.setattrP acc kv.1 kv.2 else acc) p) = true := by
  induction kwargs generalizing p with
  | nil => exact hp
  | cons kv kws ih =>
    simp only [List.foldl_cons]
    apply ih
    · split_ifs
      · refine setattrP_keysBounded hp ?_
        have hmem : kv.1 ∈ MemoryManager.personality_attr_keys :=
          List.mem_append_left _ (hf kv (by simp))
        exact List.elem_eq_true_of_mem hmem
      · exact hp
    · intro kv2 h2
      exact hf kv2 (by simp [h2])

lemma p0_keysBounded (u : ℕ) (now : ℤ) (st : Option UserPersonalityObj)
    (hwf : MemoryManager.PersonalityWF st) :
    keysBounded (st.getD ⟨MemoryManager.default_personality_attrs u now⟩) = true := by
  cases st with
  | none => rfl
  | some p => exact hwf.2

lemma hasKeyP_false_of_keysBounded (p : UserPersonalityObj) (s : String)
    (hp : keysBounded p = true)
    (hs : MemoryManager.personality_attr_keys.contains s = false) :
    MemoryManager.hasKeyP p s = false := by
  unfold keysBounded at hp
  unfold MemoryManager.hasKeyP
  rw [List.any_eq_false]
  intro kv hkv
  have hcont := List.all_eq_true.mp hp kv hkv
  simp only [beq_iff_eq]
  intro hkeq
  rw [hkeq] at hcont
  rw [hcont] at hs
  exact Bool.true_eq_false.mp hs

lemma save_shadow_none_of_keysBounded {p : UserPersonalityObj}
    (hp : keysBounded p = true) :
    MemoryManager.save_shadow_error p = none := by
  unfold MemoryManager.save_shadow_error
  simp only [hasKeyP_false_of_keysBounded p "save" hp (by decide),
    hasKeyP_false_of_keysBounded p "_prepare_related_fields_for_save" hp (by decide),
    hasKeyP_false_of_keysBounded p "_meta" hp (by decide),
    hasKeyP_false_of_keysBounded p "get_deferred_fields" hp (by decide),
    hasKeyP_false_of_keysBounded p "save_base" hp (by decide),
    hasKeyP_false_of_keysBounded p "_save_parents" hp (by decide),
    hasKeyP_false_of_keysBounded p "_save_table" hp (by decide),
    hasKeyP_false_of_keysBounded p "_state" hp (by decide)]
  simp

lemma fold_update_ignored (kwargs : List (String × PVal)) (p : UserPersonalityObj)
    (h : ∀ kv ∈ kwargs, MemoryManager.hasattrP p kv.1 = false) :
    kwargs.foldl (fun acc kv => if MemoryManager.hasattrP acc kv.1
      then MemoryManager.setattrP acc kv.1 kv.2 else acc) p = p := by
  induction kwargs with
  | nil => rfl
  | cons kv kws ih =>
    simp only [List.foldl_cons]
    rw [if_neg (by rw [h kv (by simp)]; simp)]
    exact ih (fun kv2 h2 => h kv2 (by simp [h2]))

